import Mathlib

/-!
Verification of the task-scoring, focus-window and persistence logic of the
personal productivity optimizer (`personal_productivity.py`).

Modelling conventions:
* Naive local datetimes are integer seconds counted from the local midnight
  of a reference day.  `hourOf` recovers the `.hour` field and
  `(d - t).fdiv 86400` is Python's `(deadline - now).days` (floor division,
  exactly the normalisation of `datetime.timedelta`).
* Python floats holding small hour counts are modelled as rationals `ℚ`
  (every comparison performed by the code is exact at these magnitudes).
* `defaultdict`s are modelled as insertion-ordered association lists, which
  is how CPython dicts behave.
-/

namespace Productivity

/-- The `Priority` enum (`personal_productivity.py`, class `Priority`),
underlying values 1–4. -/
inductive Priority where
  | low
  | medium
  | high
  | urgent
deriving DecidableEq

/-- Underlying value of a `Priority` member (`LOW = 1`, …, `URGENT = 4`). -/
def Priority.val : Priority → Int
  | .low => 1
  | .medium => 2
  | .high => 3
  | .urgent => 4

/-- The `TaskStatus` enum (class `TaskStatus`), underlying string values. -/
inductive TaskStatus where
  | pending
  | in_progress
  | completed
  | cancelled
deriving DecidableEq

/-- Underlying value of a `TaskStatus` member. -/
def TaskStatus.val : TaskStatus → String
  | .pending => "pending"
  | .in_progress => "in_progress"
  | .completed => "completed"
  | .cancelled => "cancelled"

/-- The `Task` dataclass.  Optional datetimes are `Option Int` (seconds),
`estimated_hours`/`actual_hours` are rationals. -/
structure Task where
  id : String
  title : String
  description : String
  priority : Priority
  deadline : Option Int
  estimated_hours : ℚ
  energy_level_required : Int
  tags : List String
  status : TaskStatus
  created_at : Int
  completed_at : Option Int := none
  actual_hours : Option ℚ := none
deriving DecidableEq

/-- The `ProductivitySession` dataclass. -/
structure ProductivitySession where
  start_time : Int
  end_time : Int
  tasks_completed : List String
  focus_score : Int
  energy_level : Int
  distractions_count : Nat
  tools_used : List String
deriving DecidableEq

/-- The `.hour` field of a naive datetime held as seconds. -/
def hourOf (t : Int) : Int :=
  (t.fdiv 3600).emod 24

/-- `TaskPrioritizationAgent.calculate_task_score`: additive score over the
deadline-urgency, priority, energy-alignment and effort bands.  All four
contributions are integers, so the Python float result is modelled as `Int`. -/
def calculate_task_score (task : Task) (current_energy : Int) (current_time : Int) : Int :=
  let deadlineScore : Int :=
    match task.deadline with
    | none => 0
    | some d =>
      let days := (d - current_time).fdiv 86400
      if days ≤ 0 then 40
      else if days ≤ 1 then 35
      else if days ≤ 3 then 25
      else if days ≤ 7 then 15
      else 5
  let priorityScore : Int :=
    match task.priority with
    | .urgent => 25
    | .high => 20
    | .medium => 10
    | .low => 5
  let energyScore : Int := max 0 (20 - |current_energy - task.energy_level_required| * 2)
  let hour := hourOf current_time
  let effortScore : Int :=
    if 9 ≤ hour ∧ hour ≤ 17 then
      if task.estimated_hours ≤ 2 then 15
      else if task.estimated_hours ≤ 4 then 10
      else 5
    else 0
  deadlineScore + priorityScore + energyScore + effortScore

/-- `TaskPrioritizationAgent.prioritize_tasks`: keep the `PENDING` tasks and
sort them by descending score.  Python's `list.sort` is a stable mergesort
and `reverse=True` preserves stability, so the embedding is `List.mergeSort`
with the comparison `score b ≤ score a`. -/
def prioritize_tasks (tasks : List Task) (current_energy : Int) (current_time : Int) : List Task :=
  (tasks.filter fun t => t.status == TaskStatus.pending).mergeSort
    fun a b =>
      decide (calculate_task_score b current_energy current_time ≤
        calculate_task_score a current_energy current_time)

/-- Concrete pending task used to witness the scoring example: deadline one
day after the evaluation instant (hour 10 of the reference day), priority
`HIGH`, required energy 8, estimated 4 hours. -/
def egTask : Task :=
  { id := "task_1", title := "Complete project proposal",
    description := "Write and review the Q2 project proposal",
    priority := .high, deadline := some (36000 + 86400),
    estimated_hours := 4, energy_level_required := 8,
    tags := ["writing"], status := .pending, created_at := 0 }

/-- C2: a pending task with deadline exactly `now + 1` day, priority `HIGH`,
`energy_level_required = 8`, `estimated_hours = 4`, scored with current
energy 7 at a time whose local hour is 10, scores exactly
`83 = 35 + 20 + 18 + 10`. -/
theorem score_example_83 (task : Task) (now : Int)
    (_hst : task.status = TaskStatus.pending)
    (hdl : task.deadline = some (now + 86400))
    (hpr : task.priority = Priority.high)
    (hen : task.energy_level_required = 8)
    (hhr : task.estimated_hours = 4)
    (hhour : hourOf now = 10) :
    calculate_task_score task 7 now = 83 := by
  have h1 : now + 86400 - now = 86400 := by ring
  have h2 : (86400 : Int).fdiv 86400 = 1 := by decide
  simp only [calculate_task_score, hdl, hpr, hen, hhr, hhour, h1, h2]
  decide

/-- Closed instance of `score_example_83` at `egTask`, evaluated at second
36000 of the reference day (hour 10). -/
theorem score_example_83_witness :
    egTask.status = TaskStatus.pending ∧
    egTask.deadline = some (36000 + 86400) ∧
    egTask.priority = Priority.high ∧
    egTask.energy_level_required = 8 ∧
    egTask.estimated_hours = 4 ∧
    hourOf 36000 = 10 ∧
    calculate_task_score egTask 7 36000 = 83 :=
  ⟨rfl, rfl, rfl, rfl, by decide, by decide,
    score_example_83 egTask 36000 rfl rfl rfl rfl (by decide) (by decide)⟩

/-- C9: every score lies between 0 and 100: each band contributes a
non-negative amount, and the band maxima are 40, 25, 20 and 15. -/
theorem score_bounds (task : Task) (e t : Int) :
    0 ≤ calculate_task_score task e t ∧ calculate_task_score task e t ≤ 100 := by
  simp only [calculate_task_score]
  have ha0 : 0 ≤ |e - task.energy_level_required| := abs_nonneg _
  set a := |e - task.energy_level_required| with ha
  have hm1 : 0 ≤ max 0 (20 - a * 2) := le_max_left _ _
  have hm2 : max 0 (20 - a * 2) ≤ 20 := by
    apply max_le <;> omega
  rcases hd : task.deadline with _ | d <;>
    rcases hp : task.priority <;>
      simp only [hd, hp] <;> split_ifs <;> constructor <;> omega

/-- C7: for a fixed task with a deadline, fixed current energy, and two
evaluation instants with the same local hour, the score at the instant with
fewer (or equal) whole days remaining is at least the score at the other:
the deadline-urgency band is antitone in the day count and the other three
bands are unchanged. -/
theorem score_deadline_monotone (task : Task) (e : Int) (t1 t2 d : Int)
    (hdl : task.deadline = some d)
    (hhour : hourOf t1 = hourOf t2)
    (hdays : (d - t2).fdiv 86400 ≤ (d - t1).fdiv 86400) :
    calculate_task_score task e t1 ≤ calculate_task_score task e t2 := by
  have key : ∀ x y : Int, y ≤ x →
      (if x ≤ 0 then (40 : Int) else if x ≤ 1 then 35 else if x ≤ 3 then 25
        else if x ≤ 7 then 15 else 5) ≤
      (if y ≤ 0 then (40 : Int) else if y ≤ 1 then 35 else if y ≤ 3 then 25
        else if y ≤ 7 then 15 else 5) := by
    intro x y h
    split_ifs <;> omega
  simp only [calculate_task_score, hdl, hhour]
  exact add_le_add_right (add_le_add_right (add_le_add_right
    (key _ _ hdays) _) _) _

/-- Closed instance of `score_deadline_monotone`: deadline at day 5, compared
at day 0 (5 whole days left, band 15) and day 4 (1 whole day left, band 35),
both at local hour 0. -/
theorem score_deadline_monotone_witness :
    egTask.deadline = some (36000 + 86400) ∧
    hourOf 0 = hourOf 86400 ∧
    ((36000 + 86400 : Int) - 86400).fdiv 86400 ≤
      ((36000 + 86400 : Int) - 0).fdiv 86400 ∧
    calculate_task_score egTask 7 0 ≤ calculate_task_score egTask 7 86400 :=
  ⟨rfl, by decide, by decide,
    score_deadline_monotone egTask 7 0 86400 (36000 + 86400)
      rfl (by decide) (by decide)⟩

/-- C3: `prioritize_tasks` returns exactly the `PENDING` tasks, pairwise
ordered by non-increasing score, and within every score fiber the output
preserves the input's relative order (stability of the sort). -/
theorem prioritize_tasks_spec (tasks : List Task) (e t : Int) :
    (prioritize_tasks tasks e t).Perm
      (tasks.filter fun tk => tk.status == TaskStatus.pending) ∧
    (prioritize_tasks tasks e t).Pairwise
      (fun a b => calculate_task_score b e t ≤ calculate_task_score a e t) ∧
    ∀ s : Int,
      (prioritize_tasks tasks e t).filter
          (fun tk => calculate_task_score tk e t == s) =
        (tasks.filter fun tk => tk.status == TaskStatus.pending).filter
          (fun tk => calculate_task_score tk e t == s) := by
  classical
  set le : Task → Task → Bool := fun a b =>
    decide (calculate_task_score b e t ≤ calculate_task_score a e t) with hle
  set pending := tasks.filter fun tk => tk.status == TaskStatus.pending with hpend
  have hdef : prioritize_tasks tasks e t = pending.mergeSort le := rfl
  have htrans : ∀ a b c, le a b → le b c → le a c := by
    intro a b c hab hbc
    simp only [hle, decide_eq_true_eq] at hab hbc ⊢
    exact le_trans hbc hab
  have htotal : ∀ a b, le a b || le b a := by
    intro a b
    simp only [hle, Bool.or_eq_true, decide_eq_true_eq]
    exact le_total _ _
  have hperm : (pending.mergeSort le).Perm pending := List.mergeSort_perm _ le
  refine ⟨hdef ▸ hperm, ?_, ?_⟩
  · have hs := List.sorted_mergeSort htrans htotal pending
    rw [hdef]
    refine hs.imp ?_
    intro a b h
    simpa only [hle, decide_eq_true_eq] using h
  · intro s
    set p : Task → Bool := fun tk => calculate_task_score tk e t == s with hp
    have hfib : ∀ a ∈ pending.filter p, ∀ b ∈ pending.filter p, le a b := by
      intro a ha b hb
      rw [List.mem_filter] at ha hb
      have ha2 : calculate_task_score a e t = s := by
        have := ha.2
        simpa only [hp, beq_iff_eq] using this
      have hb2 : calculate_task_score b e t = s := by
        have := hb.2
        simpa only [hp, beq_iff_eq] using this
      simp only [hle, decide_eq_true_eq, ha2, hb2]
      exact le_refl _
    have hsub : List.Sublist (pending.filter p) (pending.mergeSort le) :=
      List.sublist_mergeSort htrans htotal
        (List.pairwise_of_forall_mem_list hfib) (List.filter_sublist _)
    have hself : (pending.filter p).filter p = pending.filter p := by
      rw [List.filter_eq_self]
      intro a ha
      exact (List.mem_filter.mp ha).2
    have hsub2 : List.Sublist (pending.filter p) ((pending.mergeSort le).filter p) := by
      have := hsub.filter p
      rwa [hself] at this
    have hlen : ((pending.mergeSort le).filter p).length =
        (pending.filter p).length := (hperm.filter p).length_eq
    rw [hdef]
    exact (hsub2.eq_of_length hlen.symm).symm

/-- State of `FocusDistractionsAgent`.  The two `defaultdict`s are modelled
as insertion-ordered association lists (CPython dict order). -/
structure FocusDistractionsAgent where
  productivity_history : List ProductivitySession
  focus_patterns : List (Int × List Int)
  distraction_triggers : List (Int × Nat)
deriving DecidableEq

/-- `FocusDistractionsAgent.__init__`: empty history and empty maps. -/
def FocusDistractionsAgent.init : FocusDistractionsAgent :=
  ⟨[], [], []⟩

/-- `self.focus_patterns[hour].append(score)` on a `defaultdict(list)`:
append to the entry for `hour`, creating it at the end if absent. -/
def appendPattern (hour : Int) (score : Int) :
    List (Int × List Int) → List (Int × List Int)
  | [] => [(hour, [score])]
  | (k, vs) :: rest =>
    if k = hour then (k, vs ++ [score]) :: rest
    else (k, vs) :: appendPattern hour score rest

/-- `self.distraction_triggers[hour] += 1` on a `defaultdict(int)`. -/
def bumpTrigger (hour : Int) : List (Int × Nat) → List (Int × Nat)
  | [] => [(hour, 1)]
  | (k, n) :: rest =>
    if k = hour then (k, n + 1) :: rest
    else (k, n) :: bumpTrigger hour rest

/-- `FocusDistractionsAgent.log_session`: record the session, append its
focus score under its start hour, and bump the distraction-trigger count for
that hour exactly when the session had more than 3 distractions. -/
def log_session (agent : FocusDistractionsAgent)
    (session : ProductivitySession) : FocusDistractionsAgent :=
  let hour := hourOf session.start_time
  { productivity_history := agent.productivity_history ++ [session]
    focus_patterns := appendPattern hour session.focus_score agent.focus_patterns
    distraction_triggers :=
      if session.distractions_count > 3 then
        bumpTrigger hour agent.distraction_triggers
      else agent.distraction_triggers }

/-- Fold `log_session` over a list of sessions starting from the fresh
agent: the agent state after logging exactly these sessions in order. -/
def logSessions (sessions : List ProductivitySession) : FocusDistractionsAgent :=
  sessions.foldl log_session FocusDistractionsAgent.init

/-- Dictionary lookup in `focus_patterns` (keys are unique, so first match
is the dict entry). -/
def lookupPattern : List (Int × List Int) → Int → Option (List Int)
  | [], _ => none
  | (k, vs) :: rest, hour => if k = hour then some vs else lookupPattern rest hour

/-- `self.distraction_triggers.get(hour, 0)`. -/
def getTrigger : List (Int × Nat) → Int → Nat
  | [], _ => 0
  | (k, n) :: rest, hour => if k = hour then n else getTrigger rest hour

/-- `avg_focus_by_hour.get(hour, 5)`: the arithmetic mean of the recorded
focus scores for `hour`, defaulting to 5 when the hour has no bucket. -/
def avgFocus (ps : List (Int × List Int)) (hour : Int) : ℚ :=
  match lookupPattern ps hour with
  | some scores => (scores.sum : ℚ) / (scores.length : ℚ)
  | none => 5

/-- Score of the 2-hour window starting at `hour`: the mean of the average
focus of hours `hour` and `hour + 1` only. -/
def windowScore (ps : List (Int × List Int)) (hour : Int) : ℚ :=
  (avgFocus ps hour + avgFocus ps (hour + 1)) / 2

/-- One iteration of the scan in `get_optimal_focus_time`: keep the best
score and window so far, replacing them only on a strictly better score. -/
def focusStep (ps : List (Int × List Int)) (acc : ℚ × (Int × Int)) (hour : Int) :
    ℚ × (Int × Int) :=
  if hour + 2 ≤ 22 then
    if acc.1 < windowScore ps hour then (windowScore ps hour, (hour, hour + 2))
    else acc
  else acc

/-- `range(6, 20)`: the start hours scanned by `get_optimal_focus_time`. -/
def scanHours : List Int :=
  (List.range 14).map fun i : Nat => 6 + (i : Int)

/-- `FocusDistractionsAgent.get_optimal_focus_time`: `(9, 11)` when no
session has been logged, otherwise the scan over start hours 6–19 with
initial best score 0 and initial window `(9, 11)`. -/
def get_optimal_focus_time (agent : FocusDistractionsAgent) : Int × Int :=
  if agent.focus_patterns.isEmpty then (9, 11)
  else (scanHours.foldl (focusStep agent.focus_patterns) (0, (9, 11))).2

/-- `FocusDistractionsAgent.suggest_break_time`: `True` exactly when the
distraction-trigger count for the current hour exceeds 3 (the commented
90-minute rule is not implemented and the function otherwise returns
`False`). -/
def suggest_break_time (agent : FocusDistractionsAgent) (current_time : Int) : Bool :=
  if getTrigger agent.distraction_triggers (hourOf current_time) > 3 then true
  else false

/-- C5: with no sessions logged the optimal focus window is exactly
`(9, 11)`. -/
theorem focus_time_default :
    get_optimal_focus_time (logSessions []) = (9, 11) := by
  decide

/-- Bumping the trigger count for one hour never lowers any hour's count. -/
theorem getTrigger_le_bumpTrigger (h h' : Int) (ts : List (Int × Nat)) :
    getTrigger ts h ≤ getTrigger (bumpTrigger h' ts) h := by
  induction ts with
  | nil => simp [getTrigger, bumpTrigger]
  | cons p rest ih =>
    obtain ⟨k, n⟩ := p
    by_cases hk : k = h'
    · subst hk
      simp only [bumpTrigger, if_pos rfl, getTrigger]
      split <;> omega
    · simp only [bumpTrigger, if_neg hk, getTrigger]
      split
      · exact le_refl _
      · exact ih

/-- A session with hour-14 start time and 5 distractions, used to witness
the break-suggestion scenario. -/
def breakSession : ProductivitySession :=
  { start_time := 50400, end_time := 54000, tasks_completed := [],
    focus_score := 5, energy_level := 5, distractions_count := 5,
    tools_used := [] }

/-- C6: `suggest_break_time` returns `True` exactly when the
distraction-trigger count of the current hour exceeds 3; `log_session` never
lowers a trigger count; and logging four sessions with 5 distractions
starting at hour 14 makes the hour-14 check return `True`. -/
theorem suggest_break_spec :
    (∀ (agent : FocusDistractionsAgent) (t : Int),
      suggest_break_time agent t =
        decide (getTrigger agent.distraction_triggers (hourOf t) > 3)) ∧
    (∀ (agent : FocusDistractionsAgent) (s : ProductivitySession) (h : Int),
      getTrigger agent.distraction_triggers h ≤
        getTrigger (log_session agent s).distraction_triggers h) ∧
    suggest_break_time (logSessions (List.replicate 4 breakSession)) 50400 = true := by
  refine ⟨?_, ?_, by decide⟩
  · intro agent t
    unfold suggest_break_time
    split
    · next hgt => simp [hgt]
    · next hgt => simp [hgt]
  · intro agent s h
    unfold log_session
    split
    · exact getTrigger_le_bumpTrigger h _ _
    · exact le_refl _

/-- If no scanned window beats the running best score, the scan keeps the
accumulator unchanged. -/
theorem foldl_focusStep_const (ps : List (Int × List Int)) (l : List Int)
    (b : ℚ) (w : Int × Int) (hb : ∀ h ∈ l, windowScore ps h ≤ b) :
    l.foldl (focusStep ps) (b, w) = (b, w) := by
  induction l with
  | nil => rfl
  | cons a l ih =>
    have ha : windowScore ps a ≤ b := hb a (List.mem_cons_self a l)
    have hstep : focusStep ps (b, w) a = (b, w) := by
      unfold focusStep
      split_ifs with h1 h2
      · exact absurd h2 (not_lt.mpr ha)
      · rfl
      · rfl
    rw [List.foldl_cons, hstep]
    exact ih fun h hh => hb h (List.mem_cons_of_mem _ hh)

/-- Loop invariant of the window scan: when some scanned window strictly
beats the initial best score, the scan ends on the first window attaining
the maximum score (strict `>` comparison, ascending scan over a strictly
increasing hour list). -/
theorem foldl_focusStep_argmax (ps : List (Int × List Int)) :
    ∀ (l : List Int) (b : ℚ) (w : Int × Int),
      l.Pairwise (· < ·) → (∀ h ∈ l, h + 2 ≤ 22) →
      (∃ h ∈ l, b < windowScore ps h) →
      ∃ h ∈ l, b < windowScore ps h ∧
        (∀ h' ∈ l, windowScore ps h' ≤ windowScore ps h) ∧
        (∀ h' ∈ l, h' < h → windowScore ps h' < windowScore ps h) ∧
        l.foldl (focusStep ps) (b, w) = (windowScore ps h, (h, h + 2)) := by
  intro l
  induction l with
  | nil =>
    intro b w _ _ hex
    simp at hex
  | cons a l ih =>
    intro b w hpw h22 hex
    have h22a : a + 2 ≤ 22 := h22 a (List.mem_cons_self a l)
    have h22l : ∀ h ∈ l, h + 2 ≤ 22 := fun h hh => h22 h (List.mem_cons_of_mem _ hh)
    have hpwl : l.Pairwise (· < ·) := (List.pairwise_cons.mp hpw).2
    have halt : ∀ h ∈ l, a < h := (List.pairwise_cons.mp hpw).1
    by_cases hba : b < windowScore ps a
    · have hstep : focusStep ps (b, w) a = (windowScore ps a, (a, a + 2)) := by
        unfold focusStep
        rw [if_pos h22a, if_pos hba]
      by_cases hrest : ∃ h ∈ l, windowScore ps a < windowScore ps h
      · obtain ⟨h, hmem, hgt, hmax, hstrict, hfold⟩ :=
          ih hpwl h22l hrest (b := windowScore ps a) (w := (a, a + 2))
        refine ⟨h, List.mem_cons_of_mem _ hmem, lt_trans hba hgt, ?_, ?_, ?_⟩
        · intro h' hh'
          rcases List.mem_cons.mp hh' with rfl | hh'
          · exact le_of_lt hgt
          · exact hmax h' hh'
        · intro h' hh' hlt
          rcases List.mem_cons.mp hh' with rfl | hh'
          · exact hgt
          · exact hstrict h' hh' hlt
        · rw [List.foldl_cons, hstep, hfold]
      · push_neg at hrest
        refine ⟨a, List.mem_cons_self a l, hba, ?_, ?_, ?_⟩
        · intro h' hh'
          rcases List.mem_cons.mp hh' with rfl | hh'
          · exact le_refl _
          · exact hrest h' hh'
        · intro h' hh' hlt
          rcases List.mem_cons.mp hh' with rfl | hh'
          · exact absurd hlt (lt_irrefl _)
          · exact absurd hlt (not_lt.mpr (le_of_lt (halt h' hh')))
        · rw [List.foldl_cons, hstep]
          exact foldl_focusStep_const ps l _ _ hrest
    · have hstep : focusStep ps (b, w) a = (b, w) := by
        unfold focusStep
        rw [if_pos h22a, if_neg hba]
      have hex' : ∃ h ∈ l, b < windowScore ps h := by
        obtain ⟨h0, hh0, hb0⟩ := hex
        rcases List.mem_cons.mp hh0 with rfl | hh0
        · exact absurd hb0 hba
        · exact ⟨h0, hh0, hb0⟩
      obtain ⟨h, hmem, hgt, hmax, hstrict, hfold⟩ := ih hpwl h22l hex' (b := b) (w := w)
      refine ⟨h, List.mem_cons_of_mem _ hmem, hgt, ?_, ?_, ?_⟩
      · intro h' hh'
        rcases List.mem_cons.mp hh' with rfl | hh'
        · exact le_of_lt (lt_of_le_of_lt (not_lt.mp hba) hgt)
        · exact hmax h' hh'
      · intro h' hh' hlt
        rcases List.mem_cons.mp hh' with rfl | hh'
        · exact lt_of_le_of_lt (not_lt.mp hba) hgt
        · exact hstrict h' hh' hlt
      · rw [List.foldl_cons, hstep, hfold]

/-- A list whose entries are all at least 1 has sum at least its length. -/
theorem length_le_sum_of_one_le (l : List Int) (h : ∀ v ∈ l, 1 ≤ v) :
    (l.length : Int) ≤ l.sum := by
  induction l with
  | nil => simp
  | cons a l ih =>
    simp only [List.length_cons, List.sum_cons]
    have h1 := h a (List.mem_cons_self a l)
    have h2 := ih fun v hv => h v (List.mem_cons_of_mem _ hv)
    push_cast
    omega

/-- A successful `lookupPattern` returns the value list of some entry. -/
theorem lookupPattern_mem (ps : List (Int × List Int)) (h : Int)
    (vs : List Int) (hl : lookupPattern ps h = some vs) : ∃ k, (k, vs) ∈ ps := by
  induction ps with
  | nil => simp [lookupPattern] at hl
  | cons p rest ih =>
    obtain ⟨k, vs'⟩ := p
    by_cases hk : k = h
    · refine ⟨k, ?_⟩
      simp only [lookupPattern, if_pos hk] at hl
      rw [Option.some_inj] at hl
      subst hl
      exact List.mem_cons_self _ _
    · simp only [lookupPattern, if_neg hk] at hl
      obtain ⟨k', hk'⟩ := ih hl
      exact ⟨k', List.mem_cons_of_mem _ hk'⟩

/-- When every bucket is non-empty and holds scores that are at least 1,
every per-hour average (with its default of 5) is at least 1. -/
theorem avgFocus_ge_one (ps : List (Int × List Int))
    (hps : ∀ p ∈ ps, p.2 ≠ [] ∧ ∀ x ∈ p.2, (1 : Int) ≤ x) (h : Int) :
    (1 : ℚ) ≤ avgFocus ps h := by
  unfold avgFocus
  cases hl : lookupPattern ps h with
  | none => norm_num
  | some scores =>
    obtain ⟨k, hk⟩ := lookupPattern_mem ps h scores hl
    obtain ⟨hne, hge⟩ := hps (k, scores) hk
    have hlen : 0 < scores.length := List.length_pos.mpr hne
    have hlenq : (0 : ℚ) < (scores.length : ℚ) := by exact_mod_cast hlen
    rw [one_le_div hlenq]
    have := length_le_sum_of_one_le scores hge
    exact_mod_cast this

/-- `appendPattern` preserves the bucket invariant. -/
theorem appendPattern_sound (hour v : Int) (ps : List (Int × List Int))
    (hps : ∀ p ∈ ps, p.2 ≠ [] ∧ ∀ x ∈ p.2, (1 : Int) ≤ x) (hv : 1 ≤ v) :
    ∀ p ∈ appendPattern hour v ps, p.2 ≠ [] ∧ ∀ x ∈ p.2, (1 : Int) ≤ x := by
  induction ps with
  | nil =>
    intro p hp
    simp only [appendPattern, List.mem_singleton] at hp
    subst hp
    refine ⟨by simp, ?_⟩
    intro x hx
    rw [List.mem_singleton] at hx
    subst hx
    exact hv
  | cons q rest ih =>
    obtain ⟨k, vs⟩ := q
    intro p hp
    by_cases hk : k = hour
    · simp only [appendPattern, if_pos hk] at hp
      rcases List.mem_cons.mp hp with rfl | hp
      · refine ⟨by simp, ?_⟩
        intro x hx
        rcases List.mem_append.mp hx with hx | hx
        · exact (hps (k, vs) (List.mem_cons_self _ _)).2 x hx
        · rw [List.mem_singleton] at hx
          subst hx
          exact hv
      · exact hps p (List.mem_cons_of_mem _ hp)
    · simp only [appendPattern, if_neg hk] at hp
      rcases List.mem_cons.mp hp with rfl | hp
      · exact hps (k, vs) (List.mem_cons_self _ _)
      · exact ih (fun q hq => hps q (List.mem_cons_of_mem _ hq)) p hp

/-- Folding `log_session` over sessions with focus scores at least 1
preserves the bucket invariant. -/
theorem foldl_log_session_sound (sessions : List ProductivitySession) :
    ∀ (a : FocusDistractionsAgent),
      (∀ p ∈ a.focus_patterns, p.2 ≠ [] ∧ ∀ x ∈ p.2, (1 : Int) ≤ x) →
      (∀ s ∈ sessions, 1 ≤ s.focus_score) →
      ∀ p ∈ (sessions.foldl log_session a).focus_patterns,
        p.2 ≠ [] ∧ ∀ x ∈ p.2, (1 : Int) ≤ x := by
  induction sessions with
  | nil => intro a ha _; exact ha
  | cons s rest ih =>
    intro a ha hpos
    rw [List.foldl_cons]
    refine ih (log_session a s) ?_ fun s' hs' => hpos s' (List.mem_cons_of_mem _ hs')
    exact appendPattern_sound _ _ _ ha (hpos s (List.mem_cons_self _ _))

/-- `appendPattern` never yields an empty map. -/
theorem appendPattern_ne_nil (hour v : Int) (ps : List (Int × List Int)) :
    appendPattern hour v ps ≠ [] := by
  cases ps with
  | nil => simp [appendPattern]
  | cons q rest =>
    obtain ⟨k, vs⟩ := q
    unfold appendPattern
    split <;> simp

/-- Once the focus-pattern map is non-empty, it stays non-empty under
further logging. -/
theorem foldl_log_session_patterns_ne (sessions : List ProductivitySession) :
    ∀ (a : FocusDistractionsAgent), a.focus_patterns ≠ [] →
      (sessions.foldl log_session a).focus_patterns ≠ [] := by
  induction sessions with
  | nil => intro a ha; exact ha
  | cons s rest ih =>
    intro a _
    rw [List.foldl_cons]
    exact ih (log_session a s) (appendPattern_ne_nil _ _ _)

/-- The start hours scanned by the window loop are exactly 6–19. -/
theorem mem_scanHours (h : Int) : h ∈ scanHours ↔ 6 ≤ h ∧ h ≤ 19 := by
  constructor
  · intro hm
    obtain ⟨i, hi, rfl⟩ := List.mem_map.mp hm
    rw [List.mem_range] at hi
    omega
  · rintro ⟨h6, h19⟩
    refine List.mem_map.mpr ⟨(h - 6).toNat, List.mem_range.mpr (by omega), by omega⟩

/-- C4: with at least one logged session (focus scores at least 1, as the
session data model prescribes), `get_optimal_focus_time` returns
`(h, h + 2)` where `h` is the first start hour in the ascending scan of
6–19 attaining the maximal window score; windows are scored as the mean of
the average focus of hours `h` and `h + 1` only, absent hours defaulting
to 5. -/
theorem optimal_focus_first_argmax (sessions : List ProductivitySession)
    (hne : sessions ≠ [])
    (hpos : ∀ s ∈ sessions, 1 ≤ s.focus_score) :
    ∃ h : Int, 6 ≤ h ∧ h ≤ 19 ∧
      get_optimal_focus_time (logSessions sessions) = (h, h + 2) ∧
      (∀ h', 6 ≤ h' → h' ≤ 19 →
        windowScore (logSessions sessions).focus_patterns h' ≤
          windowScore (logSessions sessions).focus_patterns h) ∧
      (∀ h', 6 ≤ h' → h' < h →
        windowScore (logSessions sessions).focus_patterns h' <
          windowScore (logSessions sessions).focus_patterns h) := by
  set ps := (logSessions sessions).focus_patterns with hps
  have hsound : ∀ p ∈ ps, p.2 ≠ [] ∧ ∀ x ∈ p.2, (1 : Int) ≤ x :=
    foldl_log_session_sound sessions FocusDistractionsAgent.init
      (by intro p hp; simp [FocusDistractionsAgent.init] at hp) hpos
  have havg : ∀ h : Int, (1 : ℚ) ≤ avgFocus ps h := avgFocus_ge_one ps hsound
  have hws : ∀ h : Int, (1 : ℚ) ≤ windowScore ps h := by
    intro h
    unfold windowScore
    have h1 := havg h
    have h2 := havg (h + 1)
    linarith
  have hne' : ps ≠ [] := by
    rcases sessions with _ | ⟨s, rest⟩
    · exact absurd rfl hne
    · exact foldl_log_session_patterns_ne rest (log_session FocusDistractionsAgent.init s)
        (appendPattern_ne_nil _ _ _)
  have hnonempty : ¬ ps.isEmpty = true := by
    simpa [List.isEmpty_iff] using hne'
  have hpw : scanHours.Pairwise (· < ·) := by decide
  have h22 : ∀ h ∈ scanHours, h + 2 ≤ 22 := by decide
  have hex : ∃ h ∈ scanHours, (0 : ℚ) < windowScore ps h :=
    ⟨6, by decide, lt_of_lt_of_le one_pos (hws 6)⟩
  obtain ⟨h, hmem6, _, hmax, hstrict, hfold⟩ :=
    foldl_focusStep_argmax ps scanHours 0 (9, 11) hpw h22 hex
  obtain ⟨h6, h19⟩ := (mem_scanHours h).mp hmem6
  refine ⟨h, h6, h19, ?_, ?_, ?_⟩
  · unfold get_optimal_focus_time
    rw [if_neg hnonempty, hfold]
  · intro h' h6' h19'
    exact hmax h' ((mem_scanHours h').mpr ⟨h6', h19'⟩)
  · intro h' h6' hlt
    exact hstrict h' ((mem_scanHours h').mpr ⟨h6', le_of_lt (lt_of_lt_of_le hlt h19)⟩) hlt

/-- A session starting at hour 10 with focus score 8, used to witness the
focus-window theorem. -/
def egSession : ProductivitySession :=
  { start_time := 36000, end_time := 39600, tasks_completed := [],
    focus_score := 8, energy_level := 7, distractions_count := 2,
    tools_used := [] }

/-- Closed instance of `optimal_focus_first_argmax` for the single-session
history `[egSession]`. -/
theorem optimal_focus_first_argmax_witness :
    ([egSession] : List ProductivitySession) ≠ [] ∧
    (∀ s ∈ [egSession], 1 ≤ s.focus_score) ∧
    ∃ h : Int, 6 ≤ h ∧ h ≤ 19 ∧
      get_optimal_focus_time (logSessions [egSession]) = (h, h + 2) ∧
      (∀ h', 6 ≤ h' → h' ≤ 19 →
        windowScore (logSessions [egSession]).focus_patterns h' ≤
          windowScore (logSessions [egSession]).focus_patterns h) ∧
      (∀ h', 6 ≤ h' → h' < h →
        windowScore (logSessions [egSession]).focus_patterns h' <
          windowScore (logSessions [egSession]).focus_patterns h) :=
  ⟨by decide, by decide,
    optimal_focus_first_argmax [egSession] (by decide) (by decide)⟩

/-- Python truthiness of the optional `actual_hours` argument: `None` and
`0.0` are falsy, every other float is truthy (`if actual_hours:`). -/
def pyTruthy : Option ℚ → Bool
  | none => false
  | some x => !(x == 0)

/-- The loop body of `ProductivityOptimizer.complete_task`: mark the first
task with matching id completed (recording `actual_hours` only when the
argument is truthy) and stop at the `break`. -/
def completeFirst : List Task → String → Option ℚ → Int → List Task
  | [], _, _, _ => []
  | t :: rest, task_id, actual_hours, now =>
    if t.id == task_id then
      { t with
        status := TaskStatus.completed
        completed_at := some now
        actual_hours := if pyTruthy actual_hours then actual_hours
          else t.actual_hours } :: rest
    else t :: completeFirst rest task_id actual_hours now

/-- The mutable state of `ProductivityOptimizer` relevant to the claims:
the task list, the current energy (default 7) and the focus agent. -/
structure ProductivityOptimizer where
  tasks : List Task
  current_energy : Int
  focus_agent : FocusDistractionsAgent
deriving DecidableEq

/-- `ProductivityOptimizer.complete_task`. -/
def complete_task (o : ProductivityOptimizer) (task_id : String)
    (actual_hours : Option ℚ) (now : Int) : ProductivityOptimizer :=
  { o with tasks := completeFirst o.tasks task_id actual_hours now }

/-- `ProductivityOptimizer.log_productivity_session`: build the session,
hand it to the focus agent, and overwrite `current_energy` with the
session's energy level. -/
def log_productivity_session (o : ProductivityOptimizer)
    (start_time end_time : Int) (tasks_completed : List String)
    (focus_score energy_level : Int) (distractions_count : Nat)
    (tools_used : List String) : ProductivityOptimizer :=
  { o with
    focus_agent := log_session o.focus_agent
      { start_time := start_time, end_time := end_time,
        tasks_completed := tasks_completed, focus_score := focus_score,
        energy_level := energy_level, distractions_count := distractions_count,
        tools_used := tools_used }
    current_energy := energy_level }

/-- The ranking performed by `get_daily_recommendations`: it always passes
the optimizer's `self.current_energy` to `prioritize_tasks`. -/
def rankNow (o : ProductivityOptimizer) (now : Int) : List Task :=
  prioritize_tasks o.tasks o.current_energy now

/-- If no task id matches, the completion loop leaves the list unchanged. -/
theorem completeFirst_no_match (tasks : List Task) (tid : String)
    (ah : Option ℚ) (now : Int) (hno : ∀ t ∈ tasks, t.id ≠ tid) :
    completeFirst tasks tid ah now = tasks := by
  induction tasks with
  | nil => rfl
  | cons t rest ih =>
    have hne : ¬ (t.id == tid) = true := by
      simp only [beq_iff_eq]
      exact hno t (List.mem_cons_self _ _)
    unfold completeFirst
    rw [if_neg hne, ih fun t' ht' => hno t' (List.mem_cons_of_mem _ ht')]

/-- The completion loop rewrites exactly the first matching task. -/
theorem completeFirst_first_match (pre : List Task) (task : Task)
    (post : List Task) (tid : String) (ah : Option ℚ) (now : Int)
    (hpre : ∀ t ∈ pre, t.id ≠ tid) (hid : task.id = tid) :
    completeFirst (pre ++ task :: post) tid ah now =
      pre ++ { task with
               status := TaskStatus.completed
               completed_at := some now
               actual_hours := if pyTruthy ah then ah
                 else task.actual_hours } :: post := by
  induction pre with
  | nil =>
    simp only [List.nil_append]
    unfold completeFirst
    rw [if_pos (by simp only [beq_iff_eq]; exact hid)]
  | cons t rest ih =>
    have hne : ¬ (t.id == tid) = true := by
      simp only [beq_iff_eq]
      exact hpre t (List.mem_cons_self _ _)
    simp only [List.cons_append]
    unfold completeFirst
    rw [if_neg hne, ih fun t' ht' => hpre t' (List.mem_cons_of_mem _ ht')]

/-- C8 (amended): `complete_task` is a silent no-op when no task id matches;
when one does, the first matching task is set to `COMPLETED` with
`completed_at = now`, and `actual_hours` is recorded only when the argument
is truthy in Python's sense (so an explicit `0` is silently not recorded). -/
theorem complete_task_spec (o : ProductivityOptimizer) (tid : String)
    (ah : Option ℚ) (now : Int) :
    ((∀ t ∈ o.tasks, t.id ≠ tid) → complete_task o tid ah now = o) ∧
    (∀ (pre : List Task) (task : Task) (post : List Task),
      o.tasks = pre ++ task :: post → (∀ t ∈ pre, t.id ≠ tid) → task.id = tid →
      (complete_task o tid ah now).tasks =
        pre ++ { task with
                 status := TaskStatus.completed
                 completed_at := some now
                 actual_hours := if pyTruthy ah then ah
                   else task.actual_hours } :: post) := by
  constructor
  · intro hno
    unfold complete_task
    rw [completeFirst_no_match o.tasks tid ah now hno]
  · intro pre task post hsplit hpre hid
    unfold complete_task
    simp only
    rw [hsplit, completeFirst_first_match pre task post tid ah now hpre hid]

/-- Optimizer state with the single pending task `egTask` (id `"task_1"`,
`actual_hours = None`). -/
def egOptimizer : ProductivityOptimizer :=
  { tasks := [egTask], current_energy := 7,
    focus_agent := FocusDistractionsAgent.init }

/-- Counterexample to C8 as stated: completing `"task_1"` with
`actual_hours = 0.0` provided leaves `actual_hours` unset (`None`), because
`if actual_hours:` treats `0.0` as absent. -/
theorem complete_task_zero_hours_counterexample :
    (complete_task egOptimizer "task_1" (some 0) 0).tasks.map Task.actual_hours
        = [none] ∧
    ¬ (complete_task egOptimizer "task_1" (some 0) 0).tasks.map Task.actual_hours
        = [some 0] := by
  have h : (complete_task egOptimizer "task_1" (some 0) 0).tasks.map
      Task.actual_hours = [none] := rfl
  refine ⟨h, ?_⟩
  rw [h]
  simp

/-- Closed instance of `complete_task_spec`: an unknown id is a no-op, and
a truthy `actual_hours = 2` is recorded on the first matching task. -/
theorem complete_task_spec_witness :
    complete_task egOptimizer "nope" (some 2) 5 = egOptimizer ∧
    (complete_task egOptimizer "task_1" (some 2) 5).tasks =
      [] ++ { egTask with
              status := TaskStatus.completed
              completed_at := some 5
              actual_hours := if pyTruthy (some 2) then some 2
                else egTask.actual_hours } :: [] :=
  ⟨(complete_task_spec egOptimizer "nope" (some 2) 5).1 (by decide),
   (complete_task_spec egOptimizer "task_1" (some 2) 5).2 [] egTask [] rfl
     (by intro t ht; exact absurd ht (List.not_mem_nil t)) rfl⟩

/-- C10: logging a productivity session through the optimizer leaves the
task list untouched and overwrites `current_energy` with the session's
energy level, so every subsequent ranking (which always reads
`self.current_energy`) uses the last logged session's energy. -/
theorem log_productivity_session_spec (o : ProductivityOptimizer)
    (st et : Int) (tc : List String) (fs el : Int) (dc : Nat)
    (tu : List String) :
    (log_productivity_session o st et tc fs el dc tu).tasks = o.tasks ∧
    (log_productivity_session o st et tc fs el dc tu).current_energy = el ∧
    ∀ now : Int,
      rankNow (log_productivity_session o st et tc fs el dc tu) now =
        prioritize_tasks o.tasks el now :=
  ⟨rfl, rfl, fun _ => rfl⟩

/-! ### Persistence (`_save_user_data` / `_load_user_data`)

The saved file is a JSON document.  `json.dump(data, f, default=str)` turns
every value `json` cannot encode into `str(value)`: a `datetime` becomes its
`str()` rendering (`YYYY-MM-DD HH:MM:SS` for whole-second datetimes) and an
enum member becomes `"ClassName.MEMBER"` — `dataclasses.asdict` leaves enum
members untouched, so `Priority.HIGH` is stored as the string
`"Priority.HIGH"`, not as its underlying value `3`. -/

/-- JSON values as written and read by `json.dump` / `json.load`. -/
inductive PyVal where
  | vnull : PyVal
  | vint : Int → PyVal
  | vrat : ℚ → PyVal
  | vstr : String → PyVal
  | vlist : List PyVal → PyVal
  | vobj : List (String × PyVal) → PyVal

/-- Day count since 1970-01-01 to `(year, month, day)` in the proleptic
Gregorian calendar (standard civil-from-days algorithm; intermediate
divisions act on non-negative numbers). -/
def civilFromDays (z0 : Int) : Int × Int × Int :=
  let z := z0 + 719468
  let era := z.fdiv 146097
  let doe := z - era * 146097
  let yoe := (doe - doe / 1460 + doe / 36524 - doe / 146096) / 365
  let y := yoe + era * 400
  let doy := doe - (365 * yoe + yoe / 4 - yoe / 100)
  let mp := (5 * doy + 2) / 153
  let d := doy - (153 * mp + 2) / 5 + 1
  let m := mp + (if mp < 10 then 3 else -9)
  (y + (if m ≤ 2 then 1 else 0), m, d)

/-- `(year, month, day)` to the day count since 1970-01-01 (inverse of
`civilFromDays`). -/
def daysFromCivil (y0 m d : Int) : Int :=
  let y := y0 - (if m ≤ 2 then 1 else 0)
  let era := y.fdiv 400
  let yoe := y - era * 400
  let mp := m + (if 2 < m then -3 else 9)
  let doy := (153 * mp + 2) / 5 + d - 1
  let doe := yoe * 365 + yoe / 4 - yoe / 100 + doy
  era * 146097 + doe - 719468

/-- Zero-padded two-digit rendering. -/
def pad2 (n : Int) : String :=
  if n < 10 then "0" ++ toString n else toString n

/-- Zero-padded four-digit rendering (as `f-string` `%04d`, for the years
handled here). -/
def pad4 (n : Int) : String :=
  if n < 10 then "000" ++ toString n
  else if n < 100 then "00" ++ toString n
  else if n < 1000 then "0" ++ toString n
  else toString n

/-- `str(datetime)` for a whole-second naive datetime:
`YYYY-MM-DD HH:MM:SS`. -/
def dtStr (t : Int) : String :=
  let days := t.fdiv 86400
  let secs := t.emod 86400
  let ymd := civilFromDays days
  pad4 ymd.1 ++ "-" ++ pad2 ymd.2.1 ++ "-" ++ pad2 ymd.2.2 ++ " " ++
    pad2 (secs / 3600) ++ ":" ++ pad2 (secs / 60 % 60) ++ ":" ++ pad2 (secs % 60)

/-- Read exactly `n` decimal digits, returning their value and the rest. -/
def readDigits : Nat → Int → List Char → Option (Int × List Char)
  | 0, acc, cs => some (acc, cs)
  | n + 1, acc, c :: cs =>
    if c.isDigit then readDigits n (acc * 10 + ((c.toNat : Int) - 48)) cs
    else none
  | _ + 1, _, [] => none

/-- Consume one expected character. -/
def expectChar (c : Char) : List Char → Option (List Char)
  | c' :: cs => if c' = c then some cs else none
  | [] => none

/-- `datetime.fromisoformat` on the strings this program writes:
`YYYY-MM-DD` optionally followed by a one-character separator and
`HH:MM:SS`.  (Python also accepts fractional seconds; the program only
writes and reads whole-second strings, which is the claimed granularity.) -/
def parseIso (cs : List Char) : Option Int := do
  let (y, cs) ← readDigits 4 0 cs
  let cs ← expectChar '-' cs
  let (mo, cs) ← readDigits 2 0 cs
  let cs ← expectChar '-' cs
  let (d, cs) ← readDigits 2 0 cs
  match cs with
  | [] =>
    if 1 ≤ mo ∧ mo ≤ 12 ∧ 1 ≤ d ∧ d ≤ 31 then
      some (daysFromCivil y mo d * 86400)
    else none
  | _sep :: cs => do
    let (hh, cs) ← readDigits 2 0 cs
    let cs ← expectChar ':' cs
    let (mi, cs) ← readDigits 2 0 cs
    let cs ← expectChar ':' cs
    let (ss, cs) ← readDigits 2 0 cs
    match cs with
    | [] =>
      if 1 ≤ mo ∧ mo ≤ 12 ∧ 1 ≤ d ∧ d ≤ 31 ∧ hh ≤ 23 ∧ mi ≤ 59 ∧ ss ≤ 59 then
        some (daysFromCivil y mo d * 86400 + hh * 3600 + mi * 60 + ss)
      else none
    | _ => none

/-- `datetime.datetime.fromisoformat`, raising `ValueError` on failure. -/
def fromisoformat (s : String) : Except String Int :=
  match parseIso s.toList with
  | some t => Except.ok t
  | none => Except.error "ValueError: invalid isoformat string"

/-- `str()` of a `Priority` member, as produced by `json.dump(default=str)`. -/
def pyStrOfPriority : Priority → String
  | .low => "Priority.LOW"
  | .medium => "Priority.MEDIUM"
  | .high => "Priority.HIGH"
  | .urgent => "Priority.URGENT"

/-- `str()` of a `TaskStatus` member. -/
def pyStrOfStatus : TaskStatus → String
  | .pending => "TaskStatus.PENDING"
  | .in_progress => "TaskStatus.IN_PROGRESS"
  | .completed => "TaskStatus.COMPLETED"
  | .cancelled => "TaskStatus.CANCELLED"

/-- Serialization of an optional datetime: `null` or the `str()` rendering. -/
def saveOptDT : Option Int → PyVal
  | none => PyVal.vnull
  | some t => PyVal.vstr (dtStr t)

/-- Serialization of an optional float: `null` or the number itself. -/
def saveOptRat : Option ℚ → PyVal
  | none => PyVal.vnull
  | some q => PyVal.vrat q

/-- `asdict(task)` followed by `json.dump(default=str)`: dataclass fields in
declaration order; datetimes via `str()`, enum members via `str()` (so the
enum's underlying value is NOT what gets stored). -/
def saveTask (t : Task) : PyVal :=
  PyVal.vobj
    [("id", PyVal.vstr t.id),
     ("title", PyVal.vstr t.title),
     ("description", PyVal.vstr t.description),
     ("priority", PyVal.vstr (pyStrOfPriority t.priority)),
     ("deadline", saveOptDT t.deadline),
     ("estimated_hours", PyVal.vrat t.estimated_hours),
     ("energy_level_required", PyVal.vint t.energy_level_required),
     ("tags", PyVal.vlist (t.tags.map PyVal.vstr)),
     ("status", PyVal.vstr (pyStrOfStatus t.status)),
     ("created_at", PyVal.vstr (dtStr t.created_at)),
     ("completed_at", saveOptDT t.completed_at),
     ("actual_hours", saveOptRat t.actual_hours)]

/-- `ProductivityOptimizer._save_user_data`: the document written to
`user_data/<user_id>.json`.  The four agent `__dict__` snapshots are also
written by the program, but `_load_user_data` never reads those keys, so
their rendering is irrelevant to any behavior and is recorded as `null`
here. -/
def save_user_data (o : ProductivityOptimizer) : PyVal :=
  PyVal.vobj
    [("tasks", PyVal.vlist (o.tasks.map saveTask)),
     ("task_agent", PyVal.vnull),
     ("focus_agent", PyVal.vnull),
     ("resource_agent", PyVal.vnull),
     ("automation_agent", PyVal.vnull),
     ("current_energy", PyVal.vint o.current_energy)]

/-- Dictionary lookup in a JSON object (keys are unique). -/
def getField : List (String × PyVal) → String → Option PyVal
  | [], _ => none
  | (k, v) :: rest, key => if k = key then some v else getField rest key

/-- Python truthiness of a JSON value (`if task_data.get(...)`). -/
def pyTruthyVal : PyVal → Bool
  | PyVal.vnull => false
  | PyVal.vint n => !(n == 0)
  | PyVal.vrat q => !(q == 0)
  | PyVal.vstr s => !(s == "")
  | PyVal.vlist xs => !xs.isEmpty
  | PyVal.vobj fs => !fs.isEmpty

/-- `fromisoformat` applied to a loaded JSON value (it must be a string). -/
def parseDT : PyVal → Except String Int
  | PyVal.vstr s => fromisoformat s
  | _ => Except.error "TypeError: fromisoformat argument must be str"

/-- `Priority(value)`: succeeds only on the underlying values 1–4.  The
string `"Priority.HIGH"` stored by `_save_user_data` is NOT accepted. -/
def parsePriority : PyVal → Except String Priority
  | PyVal.vint 1 => Except.ok Priority.low
  | PyVal.vint 2 => Except.ok Priority.medium
  | PyVal.vint 3 => Except.ok Priority.high
  | PyVal.vint 4 => Except.ok Priority.urgent
  | _ => Except.error "ValueError: not a valid Priority"

/-- `TaskStatus(value)`: succeeds only on the underlying strings. -/
def parseStatus : PyVal → Except String TaskStatus
  | PyVal.vstr "pending" => Except.ok TaskStatus.pending
  | PyVal.vstr "in_progress" => Except.ok TaskStatus.in_progress
  | PyVal.vstr "completed" => Except.ok TaskStatus.completed
  | PyVal.vstr "cancelled" => Except.ok TaskStatus.cancelled
  | _ => Except.error "ValueError: not a valid TaskStatus"

/-- Mandatory key access (`task_data["k"]`), raising `KeyError` if absent. -/
def reqField (fields : List (String × PyVal)) (k : String) : Except String PyVal :=
  match getField fields k with
  | some v => Except.ok v
  | none => Except.error ("KeyError: " ++ k)

/-- Expect a JSON string. -/
def asStr : PyVal → Except String String
  | PyVal.vstr s => Except.ok s
  | _ => Except.error "TypeError: expected str"

/-- Expect a JSON number (ints also arrive as floats in this position). -/
def asRat : PyVal → Except String ℚ
  | PyVal.vrat q => Except.ok q
  | PyVal.vint n => Except.ok (n : ℚ)
  | _ => Except.error "TypeError: expected number"

/-- Expect a JSON integer. -/
def asInt : PyVal → Except String Int
  | PyVal.vint n => Except.ok n
  | _ => Except.error "TypeError: expected int"

/-- One iteration of the task-reconstruction loop in `_load_user_data`:
parse the datetimes, convert the enums through `Priority(...)` /
`TaskStatus(...)`, and rebuild the `Task`, failing in exactly the order the
Python statements execute. -/
def loadTask : PyVal → Except String Task
  | PyVal.vobj fields => do
    let dlv := (getField fields "deadline").getD PyVal.vnull
    let deadline ← if pyTruthyVal dlv then Except.map some (parseDT dlv)
      else Except.ok none
    let cav ← reqField fields "created_at"
    let created_at ← parseDT cav
    let cov := (getField fields "completed_at").getD PyVal.vnull
    let completed_at ← if pyTruthyVal cov then Except.map some (parseDT cov)
      else Except.ok none
    let prv ← reqField fields "priority"
    let priority ← parsePriority prv
    let stv ← reqField fields "status"
    let status ← parseStatus stv
    let id ← asStr (← reqField fields "id")
    let title ← asStr (← reqField fields "title")
    let description ← asStr (← reqField fields "description")
    let estimated_hours ← asRat (← reqField fields "estimated_hours")
    let energy_level_required ← asInt (← reqField fields "energy_level_required")
    let tags ← match (← reqField fields "tags") with
      | PyVal.vlist xs => xs.mapM asStr
      | _ => Except.error "TypeError: expected list"
    let actual_hours ← match (getField fields "actual_hours").getD PyVal.vnull with
      | PyVal.vnull => Except.ok none
      | v => Except.map some (asRat v)
    Except.ok
      { id := id, title := title, description := description,
        priority := priority, deadline := deadline,
        estimated_hours := estimated_hours,
        energy_level_required := energy_level_required, tags := tags,
        status := status, created_at := created_at,
        completed_at := completed_at, actual_hours := actual_hours }
  | _ => Except.error "TypeError: task entry is not a dict"

/-- `ProductivityOptimizer._load_user_data`: a missing file
(`FileNotFoundError`) is swallowed, keeping the constructor defaults
(empty task list, energy 7); otherwise rebuild the tasks from
`data.get("tasks", [])` and read `data.get("current_energy", 7)`.  Any
reconstruction error propagates uncaught. -/
def load_user_data (file : Option PyVal) : Except String (List Task × Int) :=
  match file with
  | none => Except.ok ([], 7)
  | some (PyVal.vobj fields) => do
    let tasks ← match (getField fields "tasks").getD (PyVal.vlist []) with
      | PyVal.vlist xs => xs.mapM loadTask
      | _ => Except.error "TypeError: tasks is not a list"
    let energy := match getField fields "current_energy" with
      | some (PyVal.vint n) => n
      | _ => 7
    Except.ok (tasks, energy)
  | some _ => Except.error "TypeError: document is not a dict"

/-- A stored task as the demo program creates it: created 2025-06-01 10:00,
deadline 2025-06-03 10:00, priority `HIGH`, status `PENDING`. -/
def egStoreTask : Task :=
  { id := "task_1", title := "Complete project proposal",
    description := "Write and review the Q2 project proposal",
    priority := .high,
    deadline := some (daysFromCivil 2025 6 3 * 86400 + 36000),
    estimated_hours := 4, energy_level_required := 8,
    tags := ["writing", "project", "deadline"], status := .pending,
    created_at := daysFromCivil 2025 6 1 * 86400 + 36000 }

/-- Optimizer state holding the single task `egStoreTask`. -/
def egStore : ProductivityOptimizer :=
  { tasks := [egStoreTask], current_energy := 7,
    focus_agent := FocusDistractionsAgent.init }

/-- C1 fails on the code: saving a non-empty task list and loading it back
raises `ValueError` instead of reproducing the list, because the enums were
stored as `str(member)` while loading demands the underlying values.  The
missing-file half of the claim does hold: loading with no snapshot yields
the empty state. -/
theorem save_load_round_trip_fails :
    load_user_data (some (save_user_data egStore)) =
      Except.error "ValueError: not a valid Priority" ∧
    load_user_data none = Except.ok ([], 7) ∧
    egStore.tasks ≠ [] :=
  ⟨rfl, rfl, by simp [egStore]⟩

end Productivity
